import Mathlib

/-! # tasty-discoveries: record parser, pagination policy and result mapper

A shallow embedding of

* `createPlaceList` (internal/loadingData/loadingData.go),
* `getPlaces` (internal/simplestInterface/simplestInterface.go),
* `ESStore.GetResponse` and `ESStore.GetPlaces` (pkg/db/db.go),
* the records of pkg/types/types.go,

followed by the properties established about them.

Conventions.  `F` stands for Go's `float64`; the library routines
`strings.TrimSpace`, `strconv.ParseFloat` and the conversion `int(x)` of a
`float64` are parameters of the definitions that use them, so every theorem
holds whatever these routines do.  Go's `int` is taken to be 64 bits wide and
is embedded in `Int`, with `wrapInt` applied where an operation can leave the
64-bit range.  A Go `error` is represented by its message.
-/

namespace TastyDiscoveries

/-! ## pkg/types -/

/-- Record `types.GeoPoint`. -/
structure GeoPoint (F : Type) where
  Lat : F
  Lon : F
deriving DecidableEq

/-- Record `types.Place`. -/
structure Place (F : Type) where
  ID : Int
  Name : String
  Address : String
  Phone : String
  Location : GeoPoint F
deriving DecidableEq

/-- Record `types.PlacesResponse`. -/
structure PlacesResponse (F : Type) where
  Name : String
  Total : Int
  Places : List (Place F)
  PrevPage : Int
  CurrentPage : Int
  NextPage : Int
  LastPage : Int
deriving DecidableEq

/-- Go's zero value of `types.Place` (`var place types.Place`). -/
def Place.zero {F : Type} [Zero F] : Place F :=
  { ID := 0, Name := "", Address := "", Phone := "", Location := { Lat := 0, Lon := 0 } }

/-! ## Machine integers and `strconv.Atoi` -/

/-- Two's complement reduction of an integer to the 64-bit range of Go's `int`. -/
def wrapInt (x : Int) : Int := (x + 2 ^ 63) % 2 ^ 64 - 2 ^ 63

/-- Value of a decimal digit, `none` for any other character. -/
def digitVal (c : Char) : Option Nat :=
  if 48 ≤ c.toNat ∧ c.toNat ≤ 57 then some (c.toNat - 48) else none

/-- Reads a run of decimal digits, most significant first, onto the accumulator `acc`. -/
def readDigits : List Char → Nat → Option Nat
  | [], acc => some acc
  | c :: cs, acc =>
    match digitVal c with
    | none => none
    | some d => readDigits cs (acc * 10 + d)

/-- Magnitude part of `strconv.Atoi`: at least one character, all of them decimal digits. -/
def readMagnitude (ds : List Char) : Option Nat :=
  if ds = [] then none else readDigits ds 0

/-- Go's `strconv.Atoi` for a 64-bit `int`: an optional sign followed by one or more decimal
digits, the value lying in `[-2^63, 2^63 - 1]`; anything else is an error. -/
def Atoi (s : String) : Except String Int :=
  match s.toList with
  | [] => .error "invalid syntax"
  | c :: cs =>
    if c = '-' then
      match readMagnitude cs with
      | none => .error "invalid syntax"
      | some n => if 2 ^ 63 < n then .error "value out of range" else .ok (-(n : Int))
    else
      match readMagnitude (if c = '+' then cs else c :: cs) with
      | none => .error "invalid syntax"
      | some n => if 2 ^ 63 ≤ n then .error "value out of range" else .ok (n : Int)

/-- Equality of results is decidable, so that results can be compared by evaluation. -/
instance instDecidableEqExcept {ε α : Type} [DecidableEq ε] [DecidableEq α] :
    DecidableEq (Except ε α)
  | .ok a, .ok b => if h : a = b then isTrue (by rw [h]) else isFalse (by intro e; cases e; exact h rfl)
  | .error a, .error b =>
    if h : a = b then isTrue (by rw [h]) else isFalse (by intro e; cases e; exact h rfl)
  | .ok _, .error _ => isFalse (by intro e; cases e)
  | .error _, .ok _ => isFalse (by intro e; cases e)

/-! ## internal/loadingData: `createPlaceList` -/

section Loading

variable {F : Type} [Zero F]

/-- The inner loop `for j, field := range line` of `createPlaceList`, entered at field index `j`
with the remaining fields of the line and the place built so far.  `i` is the index of the row.
An unparsable coordinate returns the error at once; an index above 5 leaves the loop. -/
def createPlaceFields (trimSpace : String → String) (parseFloat : String → Except String F)
    (i : Nat) : Nat → List String → Place F → Except String (Place F)
  | _, [], place => .ok place
  | j, field :: rest, place =>
    if j = 0 then
      createPlaceFields trimSpace parseFloat i (j + 1) rest { place with ID := (i : Int) }
    else if j = 1 then
      createPlaceFields trimSpace parseFloat i (j + 1) rest { place with Name := field }
    else if j = 2 then
      createPlaceFields trimSpace parseFloat i (j + 1) rest { place with Address := field }
    else if j = 3 then
      createPlaceFields trimSpace parseFloat i (j + 1) rest { place with Phone := field }
    else if j = 4 then
      match parseFloat (trimSpace field) with
      | .error err => .error err
      | .ok lon =>
        createPlaceFields trimSpace parseFloat i (j + 1) rest
          { place with Location := { place.Location with Lon := lon } }
    else if j = 5 then
      match parseFloat (trimSpace field) with
      | .error err => .error err
      | .ok lat =>
        createPlaceFields trimSpace parseFloat i (j + 1) rest
          { place with Location := { place.Location with Lat := lat } }
    else
      .ok place

/-- The body of the outer loop for one data row: a fresh zero `place` run through the field loop. -/
def createPlace (trimSpace : String → String) (parseFloat : String → Except String F)
    (i : Nat) (line : List String) : Except String (Place F) :=
  createPlaceFields trimSpace parseFloat i 0 line Place.zero

/-- The outer loop `for i, line := range *data` of `createPlaceList`, entered at row index `i`
with the remaining rows and the `placeList` built so far.  Row 0 is skipped. -/
def createPlaceRows (trimSpace : String → String) (parseFloat : String → Except String F) :
    Nat → List (List String) → List (Place F) → Except String (List (Place F))
  | _, [], placeList => .ok placeList
  | i, line :: rest, placeList =>
    if 0 < i then
      match createPlace trimSpace parseFloat i line with
      | .error err => .error err
      | .ok place => createPlaceRows trimSpace parseFloat (i + 1) rest (placeList ++ [place])
    else
      createPlaceRows trimSpace parseFloat (i + 1) rest placeList

/-- Function `createPlaceList`: `.error err` stands for the return `nil, err`, `.ok l` for
`&placeList, nil`. -/
def createPlaceList (trimSpace : String → String) (parseFloat : String → Except String F)
    (data : List (List String)) : Except String (List (Place F)) :=
  createPlaceRows trimSpace parseFloat 0 data []

end Loading

/-! ## Decoded JSON and outcomes of calls -/

/-- A value of Go's `interface{}` as produced by `encoding/json` (or placed in a query map):
`nil`, `bool`, a number of type `N`, `string`, `[]interface{}` or `map[string]interface{}`.
A map is a list of key/value pairs read with `index`. -/
inductive JVal (N : Type) where
  | null : JVal N
  | bool (b : Bool) : JVal N
  | num (x : N) : JVal N
  | str (s : String) : JVal N
  | arr (xs : List (JVal N)) : JVal N
  | obj (kvs : List (String × JVal N)) : JVal N

/-- How a Go call ends: a run-time panic, a returned non-nil `error`, or a normal return. -/
inductive Outcome (α : Type) where
  | panic : Outcome α
  | error (msg : String) : Outcome α
  | ok (val : α) : Outcome α
deriving DecidableEq

/-- Sequencing of calls: a panic or an error ends the computation. -/
def Outcome.bind {α β : Type} : Outcome α → (α → Outcome β) → Outcome β
  | .panic, _ => .panic
  | .error msg, _ => .error msg
  | .ok a, f => f a

instance : Monad Outcome where
  pure := Outcome.ok
  bind := Outcome.bind

/-- Map indexing `m[key]`: the stored value, or `nil` when the key is absent. -/
def index {N : Type} (m : List (String × JVal N)) (key : String) : JVal N :=
  (m.lookup key).getD .null

/-- Single-value type assertion `v.(map[string]interface{})`: panics on any other value. -/
def assertMap {N : Type} : JVal N → Outcome (List (String × JVal N))
  | .obj kvs => .ok kvs
  | _ => .panic

/-- Single-value type assertion `v.(float64)`: panics on any other value. -/
def assertFloat {N : Type} : JVal N → Outcome N
  | .num x => .ok x
  | _ => .panic

/-- Single-value type assertion `v.(string)`: panics on any other value. -/
def assertString {N : Type} : JVal N → Outcome String
  | .str s => .ok s
  | _ => .panic

/-- Two-value type assertion `v.([]interface{})`: `none` stands for `ok == false`. -/
def assertSliceOk {N : Type} : JVal N → Option (List (JVal N))
  | .arr xs => some xs
  | _ => none

/-- What `client.Search` followed by the JSON decoding yields in `GetResponse`. -/
inductive SearchReply (F : Type) where
  | transportError (err : String) : SearchReply F
  | httpError (status : String) : SearchReply F
  | decodeError (err : String) : SearchReply F
  | decoded (searchResult : List (String × JVal F)) : SearchReply F

/-- A call result together with the query bodies handed to `client.Search` on the way. -/
structure Traced (α : Type) where
  calls : List (JVal Int)
  result : Outcome α

/-! ## pkg/db: `ESStore.GetResponse` and `ESStore.GetPlaces` -/

section Store

variable {F : Type}

/-- The body of `for _, hit := range hits` in `GetResponse`: the place rebuilt from one hit.
Every type assertion in it is of the single-value form. -/
def placeOfHit (toInt : F → Int) (hit : JVal F) : Outcome (Place F) := do
  let hitMap ← assertMap hit
  let source := index hitMap "_source"
  let id ← (assertMap source).bind fun m => assertFloat (index m "id")
  let name ← (assertMap source).bind fun m => assertString (index m "name")
  let address ← (assertMap source).bind fun m => assertString (index m "address")
  let phone ← (assertMap source).bind fun m => assertString (index m "phone")
  let lat ← (assertMap source).bind fun m =>
    (assertMap (index m "location")).bind fun l => assertFloat (index l "lat")
  let lon ← (assertMap source).bind fun m =>
    (assertMap (index m "location")).bind fun l => assertFloat (index l "lon")
  pure { ID := toInt id, Name := name, Address := address, Phone := phone,
         Location := { Lat := lat, Lon := lon } }

/-- The loop `for _, hit := range hits`, with the `places` appended so far. -/
def placesOfHits (toInt : F → Int) : List (JVal F) → List (Place F) → Outcome (List (Place F))
  | [], places => .ok places
  | hit :: rest, places =>
    (placeOfHit toInt hit).bind fun place => placesOfHits toInt rest (places ++ [place])

/-- Lines 54-76 of `GetResponse`: the mapping of the decoded `searchResult` to places and total. -/
def mapSearchResult (toInt : F → Int) (searchResult : List (String × JVal F)) :
    Outcome (List (Place F) × Int) :=
  (assertMap (index searchResult "hits")).bind fun hitsMap =>
    match assertSliceOk (index hitsMap "hits") with
    | none => .error "no hits found response"
    | some hits =>
      (placesOfHits toInt hits []).bind fun places =>
        (assertMap (index searchResult "hits")).bind fun hitsMap2 =>
          (assertMap (index hitsMap2 "total")).bind fun total =>
            (assertFloat (index total "value")).bind fun value =>
              .ok (places, toInt value)

/-- Method `ESStore.GetResponse`.  `json.Marshal` cannot fail on the queries built here.  The
request body `query` goes to `search`, which stands for `client.Search` on the store's index
(with the fixed options `track_total_hits` and `sort=id`) followed by the status check and the
JSON decoding; a decoded reply is mapped by `mapSearchResult`. -/
def ESStore.GetResponse (toInt : F → Int) (search : JVal Int → SearchReply F)
    (query : JVal Int) : Traced (List (Place F) × Int) :=
  { calls := [query],
    result :=
      match search query with
      | .transportError err => .error err
      | .httpError status => .error ("error getting places: " ++ status)
      | .decodeError err => .error err
      | .decoded searchResult => mapSearchResult toInt searchResult }

/-- The query map built by `ESStore.GetPlaces`. -/
def placesQuery (limit offset : Int) : JVal Int :=
  .obj [("size", .num limit), ("from", .num offset),
        ("query", .obj [("match_all", .obj [])])]

/-- Method `ESStore.GetPlaces`. -/
def ESStore.GetPlaces (toInt : F → Int) (search : JVal Int → SearchReply F)
    (limit offset : Int) : Traced (List (Place F) × Int) :=
  ESStore.GetResponse toInt search (placesQuery limit offset)

/-- The fields of a document as stored in the `_source` of a hit; numbers are `float64`. -/
structure Source (F : Type) where
  id : F
  name : String
  address : String
  phone : String
  lat : F
  lon : F

/-- The hit `hit` is a map whose `_source` is a map holding the fields of `src`: a number `id`,
strings `name`, `address`, `phone`, and a map `location` with numbers `lat` and `lon`.  Further
keys may be present anywhere. -/
def HitStores (hit : JVal F) (src : Source F) : Prop :=
  ∃ hitMap source location,
    hit = .obj hitMap ∧ index hitMap "_source" = .obj source ∧
    index source "id" = .num src.id ∧ index source "name" = .str src.name ∧
    index source "address" = .str src.address ∧ index source "phone" = .str src.phone ∧
    index source "location" = .obj location ∧
    index location "lat" = .num src.lat ∧ index location "lon" = .num src.lon

/-- The place that `GetResponse` rebuilds from the stored fields `src`. -/
def Source.toPlace (toInt : F → Int) (src : Source F) : Place F :=
  { ID := toInt src.id, Name := src.name, Address := src.address, Phone := src.phone,
    Location := { Lat := src.lat, Lon := src.lon } }

/-! ## internal/simplestInterface: `getPlaces` -/

/-- The page count computed in `getPlaces`: `totalPlaces / pageSize`, one more when the remainder
is not zero.  Go's `/` and `%` truncate toward zero.  The increment cannot leave the 64-bit
range, the quotient being at most `2^63 / 10`. -/
def totalPages (totalPlaces pageSize : Int) : Int :=
  if totalPlaces.tmod pageSize ≠ 0 then totalPlaces.tdiv pageSize + 1
  else totalPlaces.tdiv pageSize

/-- The offset computed in `getPlaces`, in 64-bit arithmetic. -/
def pageOffset (realPage pageSize : Int) : Int :=
  wrapInt (wrapInt (realPage - 1) * pageSize)

/-- Function `getPlaces`.  `newClient` is the outcome of `elasticsearch.NewClient`, `page` the
string `r.URL.Query().Get("page")` (empty when the parameter is absent or present with an
empty text). -/
def getPlaces (newClient : Except String Unit) (toInt : F → Int)
    (search : JVal Int → SearchReply F) (page : String) : Traced (PlacesResponse F) :=
  match newClient with
  | .error err => { calls := [], result := .error err }
  | .ok _ =>
    let page := if page = "" then "1" else page
    match Atoi page with
    | .error _ => { calls := [], result := .error ("Invalid 'page' value: " ++ page) }
    | .ok realPage =>
      if realPage = 0 then
        { calls := [], result := .error ("Invalid 'page' value: " ++ page) }
      else
        let pageSize : Int := 10
        let offset := pageOffset realPage pageSize
        let reply := ESStore.GetPlaces toInt search pageSize offset
        { calls := reply.calls,
          result :=
            reply.result.bind fun r =>
              let places := r.1
              let totalPlaces := r.2
              let totalPages := totalPages totalPlaces pageSize
              if realPage > totalPages then
                .error ("Invalid 'page' value: " ++ page)
              else
                .ok { Name := "Places",
                      Total := totalPlaces,
                      Places := places,
                      CurrentPage := realPage,
                      PrevPage := wrapInt (realPage - 1),
                      NextPage := wrapInt (realPage + 1),
                      LastPage := totalPages } }

end Store

/-! ## Sample library routines, used to evaluate the definitions on concrete inputs -/

/-- A sample number type: the decimal `mantissa / 10 ^ scale`. -/
structure Dec where
  mantissa : Int
  scale : Nat
deriving DecidableEq

instance : Zero Dec := ⟨{ mantissa := 0, scale := 0 }⟩

/-- Sample `int(x)`: truncation toward zero. -/
def Dec.toInt (x : Dec) : Int := x.mantissa.tdiv (10 ^ x.scale)

/-- Whether a character is one of the ASCII blanks trimmed by `strings.TrimSpace`. -/
def isBlank (c : Char) : Bool :=
  c = ' ' || c = '\t' || c = '\n' || c = '\r' || c.toNat = 11 || c.toNat = 12

/-- Sample `strings.TrimSpace`: removes leading and trailing ASCII blanks. -/
def trimBlanks (s : String) : String :=
  String.mk (((s.toList.dropWhile isBlank).reverse.dropWhile isBlank).reverse)

/-- Sample `strconv.ParseFloat`: accepts plain decimal literals, an optional sign, digits and an
optional fraction, and yields the exact decimal. -/
def parseDec (s : String) : Except String Dec :=
  let cs := s.toList
  let neg := cs.head? = some '-'
  let body := if cs.head? = some '-' ∨ cs.head? = some '+' then cs.tail else cs
  let whole := body.takeWhile (fun c => c ≠ '.')
  let frac := (body.dropWhile (fun c => c ≠ '.')).tail
  if whole = [] ∨ (body.contains '.' ∧ frac = []) then .error "invalid syntax"
  else
    match readDigits (whole ++ frac) 0 with
    | none => .error "invalid syntax"
    | some n => .ok { mantissa := if neg then -(n : Int) else n, scale := frac.length }

/-- Sample data rows: the example row of the specification with an extra non-numeric field at
index 6, and a row holding a single field. -/
def cafeRows : List (List String) :=
  [["1", "Cafe", "123 St", "555-1234", "-73.99", "40.75", "n/a"], ["x"]]

/-- The places expected for `cafeRows`. -/
def cafePlaces : List (Place Dec) :=
  [{ ID := 1, Name := "Cafe", Address := "123 St", Phone := "555-1234",
     Location := { Lat := { mantissa := 4075, scale := 2 },
                   Lon := { mantissa := -7399, scale := 2 } } },
   { ID := 2, Name := "", Address := "", Phone := "", Location := { Lat := 0, Lon := 0 } }]

/-- A sample hit of a search response, with the keys the engine adds next to `_source`. -/
def sampleHit (id : Int) (name : String) : JVal Dec :=
  .obj [("_index", .str "places"), ("_id", .str name),
        ("_source", .obj [("id", .num { mantissa := id, scale := 0 }), ("name", .str name),
          ("address", .str "123 St"), ("phone", .str "555-1234"),
          ("location", .obj [("lat", .num { mantissa := 4075, scale := 2 }),
                             ("lon", .num { mantissa := -7399, scale := 2 })])])]

/-- The stored fields of `sampleHit id name`. -/
def sampleSource (id : Int) (name : String) : Source Dec :=
  { id := { mantissa := id, scale := 0 }, name := name, address := "123 St",
    phone := "555-1234", lat := { mantissa := 4075, scale := 2 },
    lon := { mantissa := -7399, scale := 2 } }

/-- A sample decoded search response: two hits out of 25 matching documents. -/
def sampleResponse : List (String × JVal Dec) :=
  [("took", .num { mantissa := 3, scale := 0 }),
   ("hits", .obj [("total", .obj [("value", .num { mantissa := 25, scale := 0 }),
                                  ("relation", .str "eq")]),
                  ("hits", .arr [sampleHit 1 "Cafe", sampleHit 2 "Bar"])])]

/-- A store holding `total` documents whose search returns no hits on the requested page. -/
def emptyPageStore (total : Int) : JVal Int → SearchReply Dec :=
  fun _ => .decoded [("hits", .obj [("hits", .arr []),
    ("total", .obj [("value", .num { mantissa := total, scale := 0 })])])]

/-! # Properties -/
section LoadingLemmas
variable {F : Type} [Zero F]

theorem createPlace_ok_iff (ts : String → String) (pf : String → Except String F)
    (i : Nat) (row : List String) (p : Place F) :
    createPlace ts pf i row = .ok p ↔
      p.ID = (if row = [] then 0 else (i : Int)) ∧
      p.Name = row.getD 1 "" ∧ p.Address = row.getD 2 "" ∧ p.Phone = row.getD 3 "" ∧
      (match row[4]? with
        | none => p.Location.Lon = 0
        | some f => pf (ts f) = .ok p.Location.Lon) ∧
      (match row[5]? with
        | none => p.Location.Lat = 0
        | some f => pf (ts f) = .ok p.Location.Lat) := by
  obtain ⟨id, name, address, phone, ⟨lat, lon⟩⟩ := p
  rcases row with _ | ⟨f0, _ | ⟨f1, _ | ⟨f2, _ | ⟨f3, _ | ⟨f4, _ | ⟨f5, rest⟩⟩⟩⟩⟩⟩
  · simp [createPlace, createPlaceFields, Place.zero]; tauto
  · simp [createPlace, createPlaceFields, Place.zero]; tauto
  · simp [createPlace, createPlaceFields, Place.zero]; tauto
  · simp [createPlace, createPlaceFields, Place.zero]; tauto
  · simp [createPlace, createPlaceFields, Place.zero]; tauto
  · cases h4 : pf (ts f4) with
    | error e => simp [createPlace, createPlaceFields, Place.zero, h4]
    | ok v =>
      simp [createPlace, createPlaceFields, Place.zero, h4]
      tauto
  · cases h4 : pf (ts f4) <;> cases h5 : pf (ts f5) <;> cases rest <;>
      simp [createPlace, createPlaceFields, Place.zero, h4, h5] <;> tauto

theorem createPlaceRows_ok (ts : String → String) (pf : String → Except String F) :
    ∀ (rows : List (List String)) (i : Nat) (acc out : List (Place F)), 0 < i →
      createPlaceRows ts pf i rows acc = .ok out →
      ∃ ps, out = acc ++ ps ∧ ps.length = rows.length ∧
        ∀ k row, rows[k]? = some row →
          ∃ p, ps[k]? = some p ∧ createPlace ts pf (i + k) row = .ok p := by
  intro rows
  induction rows with
  | nil =>
    intro i acc out _ h
    simp only [createPlaceRows, Except.ok.injEq] at h
    exact ⟨[], by simp [h], rfl, by simp⟩
  | cons r rest ih =>
    intro i acc out hi h
    simp only [createPlaceRows, hi, if_true] at h
    cases hr : createPlace ts pf i r with
    | error e => simp [hr] at h
    | ok p =>
      simp only [hr] at h
      obtain ⟨ps, hout, hlen, hall⟩ := ih (i + 1) (acc ++ [p]) out (Nat.succ_pos i) h
      refine ⟨p :: ps, by simp [hout], by simp [hlen], ?_⟩
      intro k row hk
      cases k with
      | zero =>
        simp only [List.getElem?_cons_zero, Option.some.injEq] at hk
        subst hk
        exact ⟨p, by simp, by simpa using hr⟩
      | succ k =>
        simp only [List.getElem?_cons_succ] at hk
        obtain ⟨q, hq, hcp⟩ := hall k row hk
        refine ⟨q, by simpa using hq, ?_⟩
        have e : i + (k + 1) = i + 1 + k := by omega
        rw [e]
        exact hcp

theorem createPlaceRows_succeeds (ts : String → String) (pf : String → Except String F) :
    ∀ (rows : List (List String)) (i : Nat) (acc : List (Place F)), 0 < i →
      (∀ k row, rows[k]? = some row → ∃ p, createPlace ts pf (i + k) row = .ok p) →
      ∃ out, createPlaceRows ts pf i rows acc = .ok out := by
  intro rows
  induction rows with
  | nil => intro i acc _ _; exact ⟨acc, rfl⟩
  | cons r rest ih =>
    intro i acc hi hall
    obtain ⟨p, hp⟩ := hall 0 r (by simp)
    have hp2 : createPlace ts pf i r = .ok p := by simpa using hp
    simp only [createPlaceRows, hi, if_true, hp2]
    apply ih (i + 1) (acc ++ [p]) (Nat.succ_pos i)
    intro k row hk
    have e : i + 1 + k = i + (k + 1) := by omega
    rw [e]
    exact hall (k + 1) row (by simpa using hk)

theorem createPlaceList_cons (ts : String → String) (pf : String → Except String F)
    (header : List String) (rows : List (List String)) :
    createPlaceList ts pf (header :: rows) = createPlaceRows ts pf 1 rows [] := by
  simp [createPlaceList, createPlaceRows]

theorem createPlace_eq (ts : String → String) (pf : String → Except String F)
    (i : Nat) (row : List String) :
    createPlace ts pf i row =
      match (match row[4]? with | none => Except.ok 0 | some f => pf (ts f)) with
      | .error err => .error err
      | .ok lon =>
        match (match row[5]? with | none => Except.ok 0 | some f => pf (ts f)) with
        | .error err => .error err
        | .ok lat =>
          .ok { ID := if row = [] then 0 else (i : Int), Name := (row[1]?).getD "",
                Address := (row[2]?).getD "", Phone := (row[3]?).getD "",
                Location := { Lat := lat, Lon := lon } } := by
  rcases row with _ | ⟨f0, _ | ⟨f1, _ | ⟨f2, _ | ⟨f3, _ | ⟨f4, _ | ⟨f5, rest⟩⟩⟩⟩⟩⟩
  · simp [createPlace, createPlaceFields, Place.zero]
  · simp [createPlace, createPlaceFields, Place.zero]
  · simp [createPlace, createPlaceFields, Place.zero]
  · simp [createPlace, createPlaceFields, Place.zero]
  · simp [createPlace, createPlaceFields, Place.zero]
  · cases h4 : pf (ts f4) <;> simp [createPlace, createPlaceFields, Place.zero, h4]
  · cases h4 : pf (ts f4) <;> cases h5 : pf (ts f5) <;> cases rest <;>
      simp [createPlace, createPlaceFields, Place.zero, h4, h5]

theorem createPlace_congr (ts : String → String) (pf : String → Except String F)
    (i : Nat) (row row2 : List String) (hempty : row = [] ↔ row2 = [])
    (hfields : ∀ j, 1 ≤ j → j ≤ 5 → row[j]? = row2[j]?) :
    createPlace ts pf i row = createPlace ts pf i row2 := by
  rw [createPlace_eq, createPlace_eq, hfields 1 (by omega) (by omega),
    hfields 2 (by omega) (by omega), hfields 3 (by omega) (by omega),
    hfields 4 (by omega) (by omega), hfields 5 (by omega) (by omega)]
  simp only [hempty]

theorem createPlace_succeeds (ts : String → String) (pf : String → Except String F)
    (i : Nat) (row : List String)
    (h : ∀ j f, (j = 4 ∨ j = 5) → row[j]? = some f → ∃ v, pf (ts f) = .ok v) :
    ∃ p, createPlace ts pf i row = .ok p := by
  rw [createPlace_eq]
  have h4 : ∃ lon, (match row[4]? with | none => Except.ok 0 | some f => pf (ts f)) = .ok lon := by
    cases e : row[4]? with
    | none => exact ⟨0, rfl⟩
    | some f => exact h 4 f (Or.inl rfl) e
  have h5 : ∃ lat, (match row[5]? with | none => Except.ok 0 | some f => pf (ts f)) = .ok lat := by
    cases e : row[5]? with
    | none => exact ⟨0, rfl⟩
    | some f => exact h 5 f (Or.inr rfl) e
  obtain ⟨lon, hlon⟩ := h4
  obtain ⟨lat, hlat⟩ := h5
  rw [hlon, hlat]
  exact ⟨_, rfl⟩

theorem createPlaceRows_congr (ts : String → String) (pf : String → Except String F) :
    ∀ (rows rows2 : List (List String)) (i : Nat) (acc : List (Place F)), 0 < i →
      rows.length = rows2.length →
      (∀ k row row2, rows[k]? = some row → rows2[k]? = some row2 →
        createPlace ts pf (i + k) row = createPlace ts pf (i + k) row2) →
      createPlaceRows ts pf i rows acc = createPlaceRows ts pf i rows2 acc := by
  intro rows
  induction rows with
  | nil =>
    intro rows2 i acc _ hlen _
    cases rows2 with
    | nil => rfl
    | cons r2 rest2 => simp at hlen
  | cons r rest ih =>
    intro rows2 i acc hi hlen hall
    cases rows2 with
    | nil => simp at hlen
    | cons r2 rest2 =>
      have h0 : createPlace ts pf i r = createPlace ts pf i r2 := by
        simpa using hall 0 r r2 (by simp) (by simp)
      simp only [createPlaceRows, hi, if_true, h0]
      cases createPlace ts pf i r2 with
      | error e => rfl
      | ok p =>
        simp only
        apply ih rest2 (i + 1) (acc ++ [p]) (Nat.succ_pos i) (by simpa using hlen)
        intro k row row2 hk hk2
        have e : i + 1 + k = i + (k + 1) := by omega
        rw [e]
        exact hall (k + 1) row row2 (by simpa using hk) (by simpa using hk2)

end LoadingLemmas
section LoadingClaims
variable {F : Type} [Zero F]

/-- C1 (as amended): for every table made of a header row and `N` data rows, each data row
holding at least one field and every coordinate field (index 4 or 5) present in a data row
parsing after trimming, `createPlaceList` succeeds and returns exactly `N` places in row order:
the place at position `k` (counted from 0) is the one built from data row `k` and has
`ID = k + 1`. -/
theorem createPlaceList_sequential_ids (trimSpace : String → String)
    (parseFloat : String → Except String F) (header : List String) (rows : List (List String))
    (hne : ∀ row ∈ rows, row ≠ [])
    (hparse : ∀ row ∈ rows, ∀ j f, (j = 4 ∨ j = 5) → row[j]? = some f →
      ∃ v, parseFloat (trimSpace f) = .ok v) :
    ∃ ps, createPlaceList trimSpace parseFloat (header :: rows) = .ok ps ∧
      ps.length = rows.length ∧
      ∀ (k : Nat) row, rows[k]? = some row →
        ∃ p, ps[k]? = some p ∧ p.ID = (k : Int) + 1 ∧
          createPlace trimSpace parseFloat (k + 1) row = .ok p := by
  obtain ⟨out, hout⟩ := createPlaceRows_succeeds trimSpace parseFloat rows 1 [] Nat.one_pos
    (fun k row hk => createPlace_succeeds trimSpace parseFloat (1 + k) row
      (hparse row (List.getElem?_mem hk)))
  obtain ⟨ps, hps, hlen, hall⟩ := createPlaceRows_ok trimSpace parseFloat rows 1 [] out
    Nat.one_pos hout
  simp only [List.nil_append] at hps
  subst hps
  refine ⟨out, by rw [createPlaceList_cons]; exact hout, hlen, ?_⟩
  intro k row hk
  obtain ⟨p, hp, hcp⟩ := hall k row hk
  have e : 1 + k = k + 1 := by omega
  rw [e] at hcp
  refine ⟨p, hp, ?_, hcp⟩
  have hid := ((createPlace_ok_iff trimSpace parseFloat (k + 1) row p).1 hcp).1
  rw [hid, if_neg (hne row (List.getElem?_mem hk))]
  push_cast
  ring

/-- C1, witness: the amended statement applied to a table with two data rows. -/
theorem createPlaceList_sequential_ids_witness :
    (∀ row ∈ [["1", "Cafe", "123 St", "555-1234", "-73.99", "40.75"], ["2", "Bar"]],
      row ≠ ([] : List String)) ∧
    ∃ ps, createPlaceList trimBlanks parseDec
        [["id", "name", "address", "phone", "lon", "lat"],
         ["1", "Cafe", "123 St", "555-1234", "-73.99", "40.75"], ["2", "Bar"]] = .ok ps ∧
      ps.length = 2 ∧
      ∀ (k : Nat) row, [["1", "Cafe", "123 St", "555-1234", "-73.99", "40.75"], ["2", "Bar"]][k]? =
          some row →
        ∃ p, ps[k]? = some p ∧ p.ID = (k : Int) + 1 ∧
          createPlace trimBlanks parseDec (k + 1) row = .ok p := by
  have hne : ∀ row ∈ [["1", "Cafe", "123 St", "555-1234", "-73.99", "40.75"], ["2", "Bar"]],
      row ≠ ([] : List String) := by
    intro row hrow
    simp only [List.mem_cons, List.mem_singleton, List.not_mem_nil, or_false] at hrow
    rcases hrow with h | h <;> rw [h] <;> simp
  refine ⟨hne, createPlaceList_sequential_ids trimBlanks parseDec _ _ hne ?_⟩
  intro row hrow j f hj hf
  simp only [List.mem_cons, List.mem_singleton, List.not_mem_nil, or_false] at hrow
  rcases hrow with h | h <;> rcases hj with hj | hj <;> subst h <;> subst hj <;>
    simp at hf <;> subst hf
  · exact ⟨{ mantissa := -7399, scale := 2 }, by decide⟩
  · exact ⟨{ mantissa := 4075, scale := 2 }, by decide⟩

/-- C1, counterexample: a table whose single data row has no field at all satisfies the premises
of the claim as stated (no coordinate field is present, so none fails to parse), yet the place
returned for that row has `ID = 0`: no result with one place per data row and `ID = k` at
position `k` exists. -/
theorem createPlaceList_empty_row_not_sequential :
    (∀ row ∈ [([] : List String)], ∀ j f, (j = 4 ∨ j = 5) → row[j]? = some f →
      ∃ v, parseDec (trimBlanks f) = .ok v) ∧
    createPlaceList trimBlanks parseDec [["id", "name"], []] = .ok [Place.zero] ∧
    ¬ ∃ ps, createPlaceList trimBlanks parseDec [["id", "name"], []] = .ok ps ∧
      ps.length = 1 ∧ ∀ (k : Nat) p, ps[k]? = some p → p.ID = (k : Int) + 1 := by
  refine ⟨?_, by decide, ?_⟩
  · intro row hrow j f _ hf
    simp only [List.mem_singleton] at hrow
    subst hrow
    simp at hf
  · rintro ⟨ps, hps, _, hid⟩
    have e : createPlaceList trimBlanks parseDec [["id", "name"], []] = .ok [Place.zero] := by
      decide
    rw [e] at hps
    injection hps with hps
    subst hps
    have := hid 0 Place.zero (by simp)
    simp [Place.zero] at this

/-- C2: whenever some data row (row index `i > 0`) of the table has, at index 4 or 5, a field
whose trimmed text does not parse as a float, `createPlaceList` returns an error and hence no
place list, whatever the other rows hold. -/
theorem createPlaceList_unparsable_coordinate_fails (trimSpace : String → String)
    (parseFloat : String → Except String F) (data : List (List String)) (i : Nat)
    (row : List String) (j : Nat) (f : String)
    (hi : 0 < i) (hrow : data[i]? = some row) (hj : j = 4 ∨ j = 5) (hf : row[j]? = some f)
    (hbad : ∀ v, parseFloat (trimSpace f) ≠ .ok v) :
    ∃ err, createPlaceList trimSpace parseFloat data = .error err := by
  cases hres : createPlaceList trimSpace parseFloat data with
  | error err => exact ⟨err, rfl⟩
  | ok out =>
    exfalso
    cases data with
    | nil => simp at hrow
    | cons header rows =>
      rw [createPlaceList_cons] at hres
      obtain ⟨ps, _, _, hall⟩ := createPlaceRows_ok trimSpace parseFloat rows 1 [] out
        Nat.one_pos hres
      obtain ⟨k, rfl⟩ : ∃ k, i = k + 1 := ⟨i - 1, by omega⟩
      simp only [List.getElem?_cons_succ] at hrow
      obtain ⟨p, _, hcp⟩ := hall k row hrow
      have hp := (createPlace_ok_iff trimSpace parseFloat (1 + k) row p).1 hcp
      rcases hj with hj | hj <;> subst hj
      · have h4 := hp.2.2.2.2.1
        rw [hf] at h4
        exact hbad _ h4
      · have h5 := hp.2.2.2.2.2
        rw [hf] at h5
        exact hbad _ h5

/-- C2, witness: a second data row with a non-numeric longitude makes the whole call fail, although
the first data row is well formed. -/
theorem createPlaceList_unparsable_coordinate_fails_witness :
    (∀ v, parseDec (trimBlanks "east") ≠ .ok v) ∧
    ∃ err, createPlaceList trimBlanks parseDec
      [["id", "name", "address", "phone", "lon", "lat"],
       ["1", "Cafe", "123 St", "555-1234", "-73.99", "40.75"],
       ["2", "Bar", "9 Rd", "555-0000", "east", "40.75"]] = .error err := by
  have hbad : ∀ v, parseDec (trimBlanks "east") ≠ .ok v := by
    intro v h
    have e : parseDec (trimBlanks "east") = .error "invalid syntax" := by decide
    rw [e] at h
    cases h
  exact ⟨hbad, createPlaceList_unparsable_coordinate_fails trimBlanks parseDec _ 2
    ["2", "Bar", "9 Rd", "555-0000", "east", "40.75"] 4 "east" (by decide) rfl (Or.inl rfl) rfl
    hbad⟩

/-- C3: for a table made of a header row and data rows, (1) whenever `createPlaceList` succeeds,
the place at position `k` is determined positionally by data row `k`: `Name`, `Address`, `Phone`
are fields 1, 2, 3 (the empty string when the row is too short), `Location.Lon` and
`Location.Lat` are the floats parsed from the trimmed fields 4 and 5 (zero when absent);
(2) the call succeeds as soon as every field present at index 4 or 5 parses, so absent fields,
short rows and fields at index 6 or later never cause an error; (3) two tables whose data rows
agree on being empty and on the fields 1 to 5 give the same result, so neither the content of
field 0 nor anything beyond index 5 has an effect. -/
theorem createPlaceList_positional (trimSpace : String → String)
    (parseFloat : String → Except String F) (header : List String) (rows : List (List String)) :
    (∀ ps, createPlaceList trimSpace parseFloat (header :: rows) = .ok ps →
      ps.length = rows.length ∧
      ∀ (k : Nat) row, rows[k]? = some row →
        ∃ p, ps[k]? = some p ∧
          p.Name = row.getD 1 "" ∧ p.Address = row.getD 2 "" ∧ p.Phone = row.getD 3 "" ∧
          (match row[4]? with
            | none => p.Location.Lon = 0
            | some f => parseFloat (trimSpace f) = .ok p.Location.Lon) ∧
          (match row[5]? with
            | none => p.Location.Lat = 0
            | some f => parseFloat (trimSpace f) = .ok p.Location.Lat)) ∧
    ((∀ row ∈ rows, ∀ j f, (j = 4 ∨ j = 5) → row[j]? = some f →
        ∃ v, parseFloat (trimSpace f) = .ok v) →
      ∃ ps, createPlaceList trimSpace parseFloat (header :: rows) = .ok ps) ∧
    (∀ (header2 : List String) (rows2 : List (List String)), rows.length = rows2.length →
      (∀ (k : Nat) row row2, rows[k]? = some row → rows2[k]? = some row2 →
        (row = [] ↔ row2 = []) ∧ ∀ j, 1 ≤ j → j ≤ 5 → row[j]? = row2[j]?) →
      createPlaceList trimSpace parseFloat (header :: rows) =
        createPlaceList trimSpace parseFloat (header2 :: rows2)) := by
  refine ⟨?_, ?_, ?_⟩
  · intro out hout
    rw [createPlaceList_cons] at hout
    obtain ⟨ps, hps, hlen, hall⟩ := createPlaceRows_ok trimSpace parseFloat rows 1 [] out
      Nat.one_pos hout
    simp only [List.nil_append] at hps
    subst hps
    refine ⟨hlen, ?_⟩
    intro k row hk
    obtain ⟨p, hp, hcp⟩ := hall k row hk
    exact ⟨p, hp, ((createPlace_ok_iff trimSpace parseFloat (1 + k) row p).1 hcp).2⟩
  · intro hparse
    rw [createPlaceList_cons]
    exact createPlaceRows_succeeds trimSpace parseFloat rows 1 [] Nat.one_pos
      (fun k row hk => createPlace_succeeds trimSpace parseFloat (1 + k) row
        (hparse row (List.getElem?_mem hk)))
  · intro header2 rows2 hlen hagree
    rw [createPlaceList_cons, createPlaceList_cons]
    apply createPlaceRows_congr trimSpace parseFloat rows rows2 1 [] Nat.one_pos hlen
    intro k row row2 hk hk2
    exact createPlace_congr trimSpace parseFloat (1 + k) row row2 (hagree k row row2 hk hk2).1
      (hagree k row row2 hk hk2).2

/-- C3, witness: the example of the specification with a non-numeric field at index 6, followed
by a one-field row. -/
theorem createPlaceList_positional_witness :
    createPlaceList trimBlanks parseDec (["h", "h", "h", "h", "h", "h"] :: cafeRows) =
      .ok cafePlaces ∧
    (cafePlaces.length = cafeRows.length ∧
      ∀ (k : Nat) row, cafeRows[k]? = some row →
        ∃ p, cafePlaces[k]? = some p ∧
          p.Name = row.getD 1 "" ∧ p.Address = row.getD 2 "" ∧ p.Phone = row.getD 3 "" ∧
          (match row[4]? with
            | none => p.Location.Lon = 0
            | some f => parseDec (trimBlanks f) = .ok p.Location.Lon) ∧
          (match row[5]? with
            | none => p.Location.Lat = 0
            | some f => parseDec (trimBlanks f) = .ok p.Location.Lat)) :=
  ⟨by decide,
   (createPlaceList_positional trimBlanks parseDec ["h", "h", "h", "h", "h", "h"] cafeRows).1
     cafePlaces (by decide)⟩

end LoadingClaims
section StoreLemmas
variable {F : Type}

theorem wrapInt_of_range (x : Int) (hlo : -9223372036854775808 ≤ x)
    (hhi : x ≤ 9223372036854775807) : wrapInt x = x := by
  unfold wrapInt
  norm_num
  omega

theorem pageOffset_of_range (p : Int) (hlo : -922337203685477579 ≤ p)
    (hhi : p ≤ 922337203685477581) : pageOffset p 10 = (p - 1) * 10 := by
  unfold pageOffset
  rw [wrapInt_of_range (p - 1) (by omega) (by omega)]
  exact wrapInt_of_range _ (by omega) (by omega)

theorem totalPages_ten_bounds (T : Int) (hT : 0 ≤ T) :
    T ≤ 10 * totalPages T 10 ∧ ∀ L : Int, T ≤ 10 * L → totalPages T 10 ≤ L := by
  have hd : T.tdiv 10 = T / 10 := Int.tdiv_eq_ediv hT (by norm_num)
  have hm : T.tmod 10 = T % 10 := Int.tmod_eq_emod hT (by norm_num)
  unfold totalPages
  rw [hd, hm]
  constructor
  · split <;> omega
  · intro L hL
    split <;> omega

theorem getPlaces_passed (toInt : F → Int) (search : JVal Int → SearchReply F)
    (page : String) (p : Int) (hp : Atoi (if page = "" then "1" else page) = .ok p)
    (hp0 : p ≠ 0) :
    getPlaces (.ok ()) toInt search page =
      { calls := [placesQuery 10 (pageOffset p 10)],
        result :=
          (ESStore.GetPlaces toInt search 10 (pageOffset p 10)).result.bind fun r =>
            if p > totalPages r.2 10 then
              .error ("Invalid 'page' value: " ++ (if page = "" then "1" else page))
            else
              .ok { Name := "Places", Total := r.2, Places := r.1, CurrentPage := p,
                    PrevPage := wrapInt (p - 1), NextPage := wrapInt (p + 1),
                    LastPage := totalPages r.2 10 } } := by
  simp only [getPlaces, hp, hp0, if_false]
  rfl

end StoreLemmas
section PaginationClaims

/-- What `getPlaces` guarantees about the page fields of a result it returns: the current page is
the parsed page number, it is not zero and it does not exceed the last page. -/
theorem getPlaces_page_bounds {F : Type} (newClient : Except String Unit) (toInt : F → Int)
    (search : JVal Int → SearchReply F) (page : String) (resp : PlacesResponse F)
    (h : (getPlaces newClient toInt search page).result = .ok resp) :
    Atoi (if page = "" then "1" else page) = .ok resp.CurrentPage ∧
    resp.CurrentPage ≠ 0 ∧ resp.CurrentPage ≤ resp.LastPage ∧
    resp.LastPage = totalPages resp.Total 10 ∧
    (ESStore.GetPlaces toInt search 10 (pageOffset resp.CurrentPage 10)).result =
      .ok (resp.Places, resp.Total) := by
  cases newClient with
  | error e => simp [getPlaces] at h
  | ok u =>
    cases hp : Atoi (if page = "" then "1" else page) with
    | error e => simp [getPlaces, hp] at h
    | ok p =>
      by_cases hp0 : p = 0
      · simp [getPlaces, hp, hp0] at h
      · rw [getPlaces_passed toInt search page p hp hp0] at h
        simp only at h
        cases hr : (ESStore.GetPlaces toInt search 10 (pageOffset p 10)).result with
        | panic => simp [hr, Outcome.bind] at h
        | error e => simp [hr, Outcome.bind] at h
        | ok r =>
          simp only [hr, Outcome.bind] at h
          split at h
          · cases h
          · rename_i hle
            injection h with h
            subst h
            exact ⟨rfl, hp0, by simpa using hle, rfl, hr⟩

/-- The pagination example of the specification: with a total of 25 and page size 10, page 3 is
served with `LastPage = 3` after a query with `from = 20`, and page 4 is rejected. -/
theorem getPlaces_total_25_example :
    (getPlaces (.ok ()) Dec.toInt (emptyPageStore 25) "3").calls = [placesQuery 10 20] ∧
    (getPlaces (.ok ()) Dec.toInt (emptyPageStore 25) "3").result =
      .ok { Name := "Places", Total := 25, Places := [], PrevPage := 2, CurrentPage := 3,
            NextPage := 4, LastPage := 3 } ∧
    (getPlaces (.ok ()) Dec.toInt (emptyPageStore 25) "4").result =
      .error "Invalid 'page' value: 4" :=
  ⟨rfl, by decide, by decide⟩

/-- C4, evaluation at the failing input: the page parameter `-1` passes the first check (only
zero is rejected there), the store is queried with `from = -20`, and when the store answers with
a total of 25 the result is returned with `CurrentPage = -1`, below 1, and `LastPage = 3`. -/
theorem getPlaces_negative_page_served :
    (getPlaces (.ok ()) Dec.toInt (emptyPageStore 25) "-1").calls = [placesQuery 10 (-20)] ∧
    (getPlaces (.ok ()) Dec.toInt (emptyPageStore 25) "-1").result =
      .ok { Name := "Places", Total := 25, Places := [], PrevPage := -2, CurrentPage := -1,
            NextPage := 0, LastPage := 3 } :=
  ⟨rfl, by decide⟩

/-- C5: for every total `T ≥ 0`, (1) the page count `totalPages T 10` is the least integer `L`
with `10 * L ≥ T`, that is `ceil(T / 10)`; (2) every result returned by `getPlaces` for which the
store reported the total `T` carries that total and this page count as `LastPage`; (3) whenever
a request passes the first page check with page number `p` and the store reports `places` and
the total `T`, `getPlaces` computes this page count: it returns the result with
`LastPage = totalPages T 10` when `p` does not exceed it, and the page error otherwise. -/
theorem getPlaces_last_page_is_ceiling (T : Int) (hT : 0 ≤ T) :
    (T ≤ 10 * totalPages T 10 ∧ ∀ L : Int, T ≤ 10 * L → totalPages T 10 ≤ L) ∧
    (∀ (F : Type) (newClient : Except String Unit) (toInt : F → Int)
      (search : JVal Int → SearchReply F) (page : String) (resp : PlacesResponse F)
      (places : List (Place F)),
      (getPlaces newClient toInt search page).result = .ok resp →
      (ESStore.GetPlaces toInt search 10 (pageOffset resp.CurrentPage 10)).result =
        .ok (places, T) →
      resp.Total = T ∧ resp.LastPage = totalPages T 10 ∧
        T ≤ 10 * resp.LastPage ∧ ∀ L : Int, T ≤ 10 * L → resp.LastPage ≤ L) ∧
    (∀ (F : Type) (toInt : F → Int) (search : JVal Int → SearchReply F) (page : String)
      (p : Int) (places : List (Place F)),
      Atoi (if page = "" then "1" else page) = .ok p → p ≠ 0 →
      (ESStore.GetPlaces toInt search 10 (pageOffset p 10)).result = .ok (places, T) →
      (getPlaces (.ok ()) toInt search page).result =
        if p > totalPages T 10 then
          .error ("Invalid 'page' value: " ++ (if page = "" then "1" else page))
        else
          .ok { Name := "Places", Total := T, Places := places, CurrentPage := p,
                PrevPage := wrapInt (p - 1), NextPage := wrapInt (p + 1),
                LastPage := totalPages T 10 }) := by
  refine ⟨totalPages_ten_bounds T hT, ?_, ?_⟩
  · intro F newClient toInt search page resp places h hstore
    obtain ⟨_, _, _, hlast, hcall⟩ := getPlaces_page_bounds newClient toInt search page resp h
    rw [hcall] at hstore
    injection hstore with hstore
    have hTot : resp.Total = T := congrArg Prod.snd hstore
    rw [hTot] at hlast
    rw [hlast]
    exact ⟨hTot, rfl, totalPages_ten_bounds T hT⟩
  · intro F toInt search page p places hp hp0 hstore
    rw [getPlaces_passed toInt search page p hp hp0]
    simp only [hstore, Outcome.bind]

/-- C5, witness: with a total of 25 reported by the store, `getPlaces` serves page 3 with
`LastPage = 3` and rejects page 4. -/
theorem getPlaces_last_page_is_ceiling_witness :
    (0 : Int) ≤ 25 ∧ totalPages 25 10 = 3 ∧
    ((25 : Int) ≤ 10 * totalPages 25 10 ∧ ∀ L : Int, 25 ≤ 10 * L → totalPages 25 10 ≤ L) ∧
    (ESStore.GetPlaces Dec.toInt (emptyPageStore 25) 10 (pageOffset 3 10)).result =
      .ok ([], 25) ∧
    (getPlaces (.ok ()) Dec.toInt (emptyPageStore 25) "3").result =
      .ok { Name := "Places", Total := 25, Places := [], CurrentPage := 3, PrevPage := 2,
            NextPage := 4, LastPage := 3 } ∧
    (getPlaces (.ok ()) Dec.toInt (emptyPageStore 25) "4").result =
      .error "Invalid 'page' value: 4" :=
  ⟨by decide, by decide, (getPlaces_last_page_is_ceiling 25 (by decide)).1, by decide,
   ((getPlaces_last_page_is_ceiling 25 (by decide)).2.2 Dec Dec.toInt (emptyPageStore 25) "3" 3
      [] (by decide) (by decide) (by decide)).trans (by decide),
   ((getPlaces_last_page_is_ceiling 25 (by decide)).2.2 Dec Dec.toInt (emptyPageStore 25) "4" 4
      [] (by decide) (by decide) (by decide)).trans (by decide)⟩

/-- C6 (as amended): when the text of the page parameter is not empty and `strconv.Atoi` either
rejects it or reads it as zero, `getPlaces` returns an error and no search request has been
handed to the store. -/
theorem getPlaces_invalid_page_no_store_call {F : Type} (newClient : Except String Unit)
    (toInt : F → Int) (search : JVal Int → SearchReply F) (page : String)
    (hpresent : page ≠ "") (hbad : ∀ n, Atoi page = .ok n → n = 0) :
    (getPlaces newClient toInt search page).calls = [] ∧
    ∃ msg, (getPlaces newClient toInt search page).result = .error msg := by
  cases newClient with
  | error e => exact ⟨rfl, e, rfl⟩
  | ok u =>
    cases hp : Atoi page with
    | error e => simp [getPlaces, hpresent, hp]
    | ok p =>
      have hp0 : p = 0 := hbad p hp
      simp [getPlaces, hpresent, hp, hp0]

/-- C6, witness: the page values `0` and `abc`. -/
theorem getPlaces_invalid_page_no_store_call_witness :
    ("0" ≠ "" ∧ (∀ n, Atoi "0" = .ok n → n = 0) ∧
      (getPlaces (.ok ()) Dec.toInt (emptyPageStore 25) "0").calls = [] ∧
      ∃ msg, (getPlaces (.ok ()) Dec.toInt (emptyPageStore 25) "0").result = .error msg) ∧
    ("abc" ≠ "" ∧ (∀ n, Atoi "abc" = .ok n → n = 0) ∧
      (getPlaces (.ok ()) Dec.toInt (emptyPageStore 25) "abc").calls = [] ∧
      ∃ msg, (getPlaces (.ok ()) Dec.toInt (emptyPageStore 25) "abc").result = .error msg) := by
  have h0 : Atoi "0" = .ok 0 := by decide
  have habc : Atoi "abc" = .error "invalid syntax" := by decide
  have hz : ∀ n, Atoi "0" = .ok n → n = 0 := fun n hn => by
    rw [h0] at hn; injection hn with hn; exact hn.symm
  have ha : ∀ n, Atoi "abc" = .ok n → n = 0 := fun n hn => by rw [habc] at hn; cases hn
  exact ⟨⟨by decide, hz,
      getPlaces_invalid_page_no_store_call (.ok ()) Dec.toInt (emptyPageStore 25) "0"
        (by decide) hz⟩,
    ⟨by decide, ha,
      getPlaces_invalid_page_no_store_call (.ok ()) Dec.toInt (emptyPageStore 25) "abc"
        (by decide) ha⟩⟩

/-- C6, counterexample: a request whose page parameter is present with an empty text
(`?page=`).  `strconv.Atoi` rejects the empty text, so the parameter is non-numeric, yet
`getPlaces` replaces it by `1` before parsing: the store is queried with `from = 0` and page 1
is served, instead of an error without a store call. -/
theorem getPlaces_empty_page_parameter_served :
    Atoi "" = .error "invalid syntax" ∧
    (getPlaces (.ok ()) Dec.toInt (emptyPageStore 25) "").calls = [placesQuery 10 0] ∧
    (getPlaces (.ok ()) Dec.toInt (emptyPageStore 25) "").result =
      .ok { Name := "Places", Total := 25, Places := [], CurrentPage := 1, PrevPage := 0,
            NextPage := 2, LastPage := 3 } ∧
    ¬ ((getPlaces (.ok ()) Dec.toInt (emptyPageStore 25) "").calls = [] ∧
        ∃ msg, (getPlaces (.ok ()) Dec.toInt (emptyPageStore 25) "").result = .error msg) := by
  have hcalls : (getPlaces (.ok ()) Dec.toInt (emptyPageStore 25) "").calls =
      [placesQuery 10 0] := rfl
  refine ⟨by decide, hcalls, by decide, ?_⟩
  rintro ⟨h, _⟩
  rw [hcalls] at h
  cases h

/-- C7 (as amended): for every request that passes the first page check with page number `p`
(the number read from the page parameter, or from the text `1` when the parameter is absent),
exactly one query document is handed to the store: the match-all query with `size = 10` and
`from` equal to `(p - 1) * 10` computed in 64-bit arithmetic, and nothing else; `from` is the
integer `(p - 1) * 10` whenever `-922337203685477579 ≤ p ≤ 922337203685477581`, and `p = 1`
when the parameter is absent. -/
theorem getPlaces_query_document {F : Type} (toInt : F → Int)
    (search : JVal Int → SearchReply F) (page : String) (p : Int)
    (hp : Atoi (if page = "" then "1" else page) = .ok p) (hp0 : p ≠ 0) :
    (getPlaces (.ok ()) toInt search page).calls =
      [.obj [("size", .num 10), ("from", .num (pageOffset p 10)),
             ("query", .obj [("match_all", .obj [])])]] ∧
    (-922337203685477579 ≤ p → p ≤ 922337203685477581 → pageOffset p 10 = (p - 1) * 10) ∧
    (page = "" → p = 1) := by
  refine ⟨?_, pageOffset_of_range p, ?_⟩
  · rw [getPlaces_passed toInt search page p hp hp0]
    rfl
  · intro hpage
    have h1 : Atoi "1" = .ok 1 := by decide
    rw [if_pos hpage, h1] at hp
    injection hp with hp
    exact hp.symm

/-- C7, witness: page 3 gives `from = 20`. -/
theorem getPlaces_query_document_witness :
    Atoi (if "3" = "" then "1" else "3") = .ok 3 ∧ (3 : Int) ≠ 0 ∧
    (getPlaces (.ok ()) Dec.toInt (emptyPageStore 25) "3").calls =
      [.obj [("size", .num 10), ("from", .num 20), ("query", .obj [("match_all", .obj [])])]] :=
  ⟨by decide, by decide,
   (getPlaces_query_document Dec.toInt (emptyPageStore 25) "3" 3 (by decide) (by decide)).1⟩

/-- C7, counterexample: the page parameter `922337203685477582` passes the first page check, and
the query handed to the store has `from = -9223372036854775806`, which is not
`(p - 1) * 10 = 9223372036854775810`: the product leaves the 64-bit range. -/
theorem getPlaces_query_offset_wraps :
    Atoi "922337203685477582" = .ok 922337203685477582 ∧
    (getPlaces (.ok ()) Dec.toInt (emptyPageStore 25) "922337203685477582").calls =
      [placesQuery 10 (-9223372036854775806)] ∧
    (getPlaces (.ok ()) Dec.toInt (emptyPageStore 25) "922337203685477582").calls ≠
      [placesQuery 10 ((922337203685477582 - 1) * 10)] := by
  have hcalls : (getPlaces (.ok ()) Dec.toInt (emptyPageStore 25) "922337203685477582").calls =
      [placesQuery 10 (-9223372036854775806)] := rfl
  refine ⟨by decide, hcalls, ?_⟩
  rw [hcalls]
  intro h
  simp [placesQuery] at h

end PaginationClaims
section MappingClaims

theorem placeOfHit_of_stores {F : Type} (toInt : F → Int) (hit : JVal F) (src : Source F)
    (h : HitStores hit src) : placeOfHit toInt hit = .ok (src.toPlace toInt) := by
  obtain ⟨hitMap, source, location, rfl, hsrc, hid, hname, haddr, hphone, hloc, hlat, hlon⟩ := h
  simp [placeOfHit, bind, pure, Outcome.bind, assertMap, assertFloat, assertString, hsrc, hid,
    hname, haddr, hphone, hloc, hlat, hlon, Source.toPlace]

theorem placesOfHits_of_stores {F : Type} (toInt : F → Int) (hits : List (JVal F))
    (docs : List (Source F)) (h : List.Forall₂ HitStores hits docs) :
    ∀ acc, placesOfHits toInt hits acc = .ok (acc ++ docs.map (Source.toPlace toInt)) := by
  induction h with
  | nil => intro acc; simp [placesOfHits]
  | cons hhit _ ih =>
    intro acc
    simp [placesOfHits, placeOfHit_of_stores toInt _ _ hhit, Outcome.bind, ih]

/-- C8, evaluation at failing inputs: on the decoded response `{}` (no `hits` object), on a
response whose only hit has no `_source`, and on a response without `hits.total`, the result
mapping of `GetResponse` ends in a run-time panic instead of returning an error; only a `hits`
object without a `hits.hits` list makes it return the error `no hits found response`. -/
theorem mapSearchResult_panics_on_malformed :
    mapSearchResult Dec.toInt [] = .panic ∧
    (ESStore.GetResponse Dec.toInt (fun _ => .decoded []) (placesQuery 10 0)).result = .panic ∧
    mapSearchResult Dec.toInt
      [("hits", .obj [("hits", .arr [.obj [("_id", .str "1")]]),
                      ("total", .obj [("value", .num { mantissa := 1, scale := 0 })])])] =
      .panic ∧
    mapSearchResult Dec.toInt [("hits", .obj [("hits", .arr [])])] = .panic ∧
    mapSearchResult Dec.toInt [("hits", .obj [])] = .error "no hits found response" :=
  ⟨by decide, by decide, by decide, by decide, by decide⟩

/-- C9: when the search reply decodes to a response whose `hits` object holds a hit list
`hits.hits`, each hit storing in its `_source` the fields of the corresponding entry of `docs`,
and a `total` object with the number `value = t`, `GetResponse` returns exactly one place per
hit, in hit order, the place of a hit carrying the stored id (converted with `int`), name,
address, phone, `location.lat` and `location.lon`, together with the total `int(t)`, whatever
the number of hits. -/
theorem GetResponse_maps_well_formed_response {F : Type} (toInt : F → Int)
    (search : JVal Int → SearchReply F) (query : JVal Int)
    (searchResult hitsMap totalMap : List (String × JVal F)) (hits : List (JVal F))
    (docs : List (Source F)) (t : F)
    (hreply : search query = .decoded searchResult)
    (hhits : index searchResult "hits" = .obj hitsMap)
    (hlist : index hitsMap "hits" = .arr hits)
    (hdocs : List.Forall₂ HitStores hits docs)
    (htotal : index hitsMap "total" = .obj totalMap)
    (hvalue : index totalMap "value" = .num t) :
    (ESStore.GetResponse toInt search query).result =
      .ok (docs.map (Source.toPlace toInt), toInt t) ∧
    (docs.map (Source.toPlace toInt)).length = hits.length := by
  refine ⟨?_, by simp [hdocs.length_eq]⟩
  simp [ESStore.GetResponse, hreply, mapSearchResult, hhits, hlist, htotal, hvalue, assertMap,
    assertSliceOk, assertFloat, Outcome.bind, placesOfHits_of_stores toInt hits docs hdocs]

/-- C9, witness: a response with two hits out of a total of 25. -/
theorem GetResponse_maps_well_formed_response_witness :
    List.Forall₂ HitStores [sampleHit 1 "Cafe", sampleHit 2 "Bar"]
      [sampleSource 1 "Cafe", sampleSource 2 "Bar"] ∧
    (ESStore.GetResponse Dec.toInt (fun _ => .decoded sampleResponse) (placesQuery 10 0)).result =
      .ok ([sampleSource 1 "Cafe", sampleSource 2 "Bar"].map (Source.toPlace Dec.toInt),
           Dec.toInt { mantissa := 25, scale := 0 }) ∧
    ([sampleSource 1 "Cafe", sampleSource 2 "Bar"].map (Source.toPlace Dec.toInt)).length =
      [sampleHit 1 "Cafe", sampleHit 2 "Bar"].length := by
  have hdocs : List.Forall₂ HitStores [sampleHit 1 "Cafe", sampleHit 2 "Bar"]
      [sampleSource 1 "Cafe", sampleSource 2 "Bar"] :=
    List.Forall₂.cons ⟨_, _, _, rfl, rfl, rfl, rfl, rfl, rfl, rfl, rfl, rfl⟩
      (List.Forall₂.cons ⟨_, _, _, rfl, rfl, rfl, rfl, rfl, rfl, rfl, rfl, rfl⟩ List.Forall₂.nil)
  exact ⟨hdocs, GetResponse_maps_well_formed_response Dec.toInt (fun _ => .decoded sampleResponse)
    (placesQuery 10 0) sampleResponse _ _ _ _ { mantissa := 25, scale := 0 } rfl rfl rfl hdocs
    rfl rfl⟩

end MappingClaims
end TastyDiscoveries
